import Mathlib

/-!
Shallow embedding of the synchronization and persistence reconciliation
logic of the "Life Goes On" personal vault (React client, variant with
cloud sync).  The definitions below are translated from the source files:
the main application component (`loadItems`, `saveItemsToDB`,
`loadItemsFromDB`, `safeJSONParse`, `validateFile`, `handleFileUpload`,
`handleAddNote`, `toggleImportant`, `deleteItem`, the real-time
subscription effect) and the remote adapter `firebase.js`
(`saveItemToCloud`, `loadItemsFromCloud`, `deleteItemFromCloud`,
`subscribeToItems`, `checkFirebaseConfig`).

External effects (IndexedDB, Firestore, blob storage, FileReader, wall
clock, generated ids) are modelled by explicit state parameters and
event traces; JavaScript objects are modelled by a single `Item`
structure whose fields default to the values an absent JS property
yields in the code paths concerned.
-/

/-- A stored item.  JS items are dynamic objects; fields absent on a JS
item are modelled by the default values used here (empty string, `false`,
`none`).  `id` is modelled as an integer: legacy ids are numbers and the
remote adapter sorts ids numerically. -/
structure Item where
  id : Int
  type : String
  content : String := ""
  name : String := ""
  size : Nat := 0
  fileType : String := ""
  data : String := ""
  important : Bool := false
  createdAt : Nat := 0
  isCloudStored : Bool := false
  updatedAt : Option Nat := none
deriving DecidableEq, Repr

/-- Security constant: 10MB file size limit. -/
def MAX_FILE_SIZE : Nat := 10 * 1024 * 1024

/-- Security constant: maximum note length. -/
def MAX_NOTE_LENGTH : Nat := 5000

/-- Security constant: maximum number of items. -/
def MAX_ITEMS : Nat := 500

/-- Allowed file types for security. -/
def ALLOWED_FILE_TYPES : List String :=
  ["image/jpeg", "image/png", "image/gif", "image/webp", "image/svg+xml",
   "application/pdf",
   "text/plain", "text/csv", "text/html", "text/css", "text/javascript",
   "application/json",
   "application/msword", "application/vnd.openxmlformats-officedocument.wordprocessingml.document",
   "application/vnd.ms-excel", "application/vnd.openxmlformats-officedocument.spreadsheetml.sheet",
   "application/vnd.ms-powerpoint", "application/vnd.openxmlformats-officedocument.presentationml.presentation",
   "application/zip", "application/x-rar-compressed",
   "audio/mpeg", "audio/wav", "audio/ogg",
   "video/mp4", "video/webm", "video/ogg"]

/-- Replace every occurrence of the character `c` by the string `rep`,
the effect of one global single-character `replace` call. -/
def replaceChar (c : Char) (rep : List Char) : List Char → List Char
  | [] => []
  | x :: xs =>
      if x = c then rep ++ replaceChar c rep xs else x :: replaceChar c rep xs

/-- Drop leading whitespace characters. -/
def trimLeftChars : List Char → List Char
  | [] => []
  | c :: cs => if c.isWhitespace then trimLeftChars cs else c :: cs

/-- JavaScript `trim()`: drop whitespace from both ends. -/
def jsTrim (s : String) : String :=
  ⟨(trimLeftChars (trimLeftChars s.data.reverse).reverse)⟩

/-- JavaScript `startsWith`: the pattern is a prefix of the string. -/
def strStartsWith (s pat : String) : Bool :=
  List.isPrefixOf pat.data s.data

/-- `sanitizeText` from the application: HTML-escape ampersand, angle
brackets, double quote and apostrophe by five chained global replaces
(in the source order), then trim surrounding whitespace. -/
def sanitizeText (text : String) : String :=
  jsTrim ⟨replaceChar '\x27' "&#x27;".data
           (replaceChar '\x22' "&quot;".data
             (replaceChar '>' "&gt;".data
               (replaceChar '<' "&lt;".data
                 (replaceChar '&' "&amp;".data text.data))))⟩

/-- The Local Durable Store (IndexedDB object store) is modelled as the
list of records it holds. -/
abbrev LocalDB := List Item

/-- `saveItemsToDB(items, forceEmpty)`: replace the whole local record
set with `items`.  If `items` is empty, the write was not forced, and
the store currently holds records, the write is skipped.  Returns the
new store contents together with a flag telling whether the write was
executed. -/
def saveItemsToDB (items : List Item) (forceEmpty : Bool) (db : LocalDB) :
    LocalDB × Bool :=
  if items.length = 0 ∧ forceEmpty = false ∧ 0 < db.length then (db, false)
  else (items, true)

/-- Descending order on `createdAt`, the comparator of `loadItemsFromDB`. -/
def createdAtDesc (a b : Item) : Prop := b.createdAt ≤ a.createdAt

instance : DecidableRel createdAtDesc := fun a b => Nat.decLe b.createdAt a.createdAt

instance : IsTotal Item createdAtDesc := ⟨fun a b => Nat.le_total b.createdAt a.createdAt⟩

instance : IsTrans Item createdAtDesc := ⟨fun _ _ _ hab hbc => Nat.le_trans hbc hab⟩

/-- `loadItemsFromDB`: read every record of the Local Durable Store,
sorted by `createdAt` descending. -/
def loadItemsFromDB (db : LocalDB) : List Item :=
  List.insertionSort createdAtDesc db

/-- Descending order on `id`, the comparator `(a, b) => b.id - a.id` of
the remote adapter. -/
def idDesc (a b : Item) : Prop := b.id ≤ a.id

instance : DecidableRel idDesc := fun a b => Int.decLe b.id a.id

instance : IsTotal Item idDesc := ⟨fun a b => Int.le_total b.id a.id⟩

instance : IsTrans Item idDesc := ⟨fun _ _ _ hab hbc => Int.le_trans hbc hab⟩

/-- Sort a record list by descending `id`. -/
def sortByIdDesc (l : List Item) : List Item :=
  List.insertionSort idDesc l

/-- `loadItemsFromCloud`: if the remote adapter is unconfigured (`!db`)
return an empty list; on a read fault return an empty list; otherwise
return every remote document sorted by descending `id`. -/
def loadItemsFromCloud (configured : Bool) (fetch : Except Unit (List Item)) :
    List Item :=
  if configured = false then []
  else
    match fetch with
    | Except.error _ => []
    | Except.ok docs => sortByIdDesc docs

/-- Storage key of a file blob: `files/${item.id}_${item.name}`. -/
def blobKey (item : Item) : String :=
  "files/" ++ toString item.id ++ "_" ++ item.name

/-- Effects of the remote adapter on the cloud document collection and
the blob store. -/
inductive CloudEv where
  | blobUpload (key : String) (bytes : String)
  | docWrite (key : String) (item : Item)
  | docDelete (key : String)
  | blobDelete (key : String)
deriving DecidableEq, Repr

/-- `saveItemToCloud(item)` for a configured adapter.  `url` models the
download URL the blob store returns for a given id and file name; `now`
models `Date.now()`.  If the item is a file whose payload is still an
inline `data:` URL, the payload bytes are uploaded to the blob store
keyed by id and name, the payload is replaced by the download URL,
`isCloudStored` is set, `updatedAt` is stamped and the record is
written; otherwise the record is written directly with a stamped
`updatedAt`.  Returns the record that was written (and returned to the
caller) together with the cloud effects. -/
def saveItemToCloud (url : Int → String → String) (now : Nat) (item : Item) :
    Item × List CloudEv :=
  if item.type = "file" ∧ item.data ≠ "" ∧ strStartsWith item.data "data:" = true then
    let itemData : Item :=
      { item with data := url item.id item.name, isCloudStored := true,
                  updatedAt := some now }
    (itemData, [CloudEv.blobUpload (blobKey item) item.data,
                CloudEv.docWrite (toString item.id) itemData])
  else
    let itemData : Item := { item with updatedAt := some now }
    (itemData, [CloudEv.docWrite (toString item.id) itemData])

/-- `setDoc` keyed by id on the remote document collection: overwrite
the document with this id, or append a new one. -/
def upsertDoc (item : Item) (docs : List Item) : List Item :=
  if docs.any (fun d => d.id = item.id) then
    docs.map (fun d => if d.id = item.id then item else d)
  else docs ++ [item]

/-- A parsed JSON value, the result of a successful `JSON.parse`. -/
inductive JValue where
  | jnull
  | jbool (b : Bool)
  | jnum (n : Int)
  | jstr (s : String)
  | jarr (xs : List JValue)
  | jobj (fields : List (String × JValue))
deriving Repr

/-- Field lookup on a parsed JSON object. -/
def jLookup (k : String) : List (String × JValue) → Option JValue
  | [] => none
  | (k2, v) :: rest => if k2 = k then some v else jLookup k rest

/-- The per-entry filter of `safeJSONParse`: the entry is truthy and of
object type (which among JSON values leaves exactly the objects, since
a parsed array never has an `id` property), its `id` property is not
`undefined`, and its `type` property is a string. -/
def legacyEntryValid : JValue → Bool
  | JValue.jobj fields =>
      (jLookup "id" fields).isSome &&
      (match jLookup "type" fields with
       | some (JValue.jstr _) => true
       | _ => false)
  | _ => false

/-- `safeJSONParse(data, fallback = [])`: `none` models a `JSON.parse`
throw; a parse result that is not an array yields the fallback; an array
is filtered entry-wise by `legacyEntryValid`. -/
def safeJSONParse : Option JValue → List JValue
  | none => []
  | some (JValue.jarr xs) => xs.filter legacyEntryValid
  | some _ => []

/-- Read a string-valued JSON field, defaulting like an absent JS
property read in the rendering and persistence paths. -/
def jGetStr (k : String) (fields : List (String × JValue)) : String :=
  match jLookup k fields with
  | some (JValue.jstr s) => s
  | _ => ""

/-- Read a numeric JSON field as a natural number. -/
def jGetNat (k : String) (fields : List (String × JValue)) : Nat :=
  match jLookup k fields with
  | some (JValue.jnum n) => n.toNat
  | _ => 0

/-- Read a boolean JSON field, defaulting to `false`. -/
def jGetBool (k : String) (fields : List (String × JValue)) : Bool :=
  match jLookup k fields with
  | some (JValue.jbool b) => b
  | _ => false

/-- Representation bridge: view a surviving legacy JSON entry as an
`Item`.  The application adopts the parsed objects unchanged; this
function is the typed rendering of that adoption. -/
def jDecodeItem (j : JValue) : Item :=
  match j with
  | JValue.jobj fields =>
      { id := (match jLookup "id" fields with
               | some (JValue.jnum n) => n
               | _ => 0),
        type := jGetStr "type" fields,
        content := jGetStr "content" fields,
        name := jGetStr "name" fields,
        size := jGetNat "size" fields,
        fileType := jGetStr "fileType" fields,
        data := jGetStr "data" fields,
        important := jGetBool "important" fields,
        createdAt := jGetNat "createdAt" fields,
        isCloudStored := jGetBool "isCloudStored" fields,
        updatedAt := none }
  | _ => { id := 0, type := "" }

/-- Observable steps of a mutation handler, in execution order. -/
inductive Ev where
  | remoteWrite (i : Item)
  | remoteDelete (i : Item)
  | publish (items : List Item)
  | localPersist (items : List Item)
  | notify (msg : String)
deriving DecidableEq, Repr

/-- A file picked in the upload input, after `FileReader` finished:
`dataURL` is the base64 `data:` URL the reader produced (`readOk = false`
models a reader failure). -/
structure FileInput where
  name : String
  size : Nat
  ftype : String
  dataURL : String
  readOk : Bool := true
deriving DecidableEq, Repr

/-- `validateFile(file)`, which closes over the component state `items`:
size ceiling, media-type allow-list (only checked when the file declares
a non-empty type), and the item-count ceiling checked against the length
of the state `items` captured when the handler began. -/
def validateFile (f : FileInput) (itemsLen : Nat) : Bool × List Ev :=
  if MAX_FILE_SIZE < f.size then
    (false, [Ev.notify ("File \"" ++ f.name ++ "\" is too large. Max size is 10MB.")])
  else if f.ftype ≠ "" ∧ (ALLOWED_FILE_TYPES.contains f.ftype) = false then
    (false, [Ev.notify ("File type \"" ++ f.ftype ++ "\" is not allowed.")])
  else if MAX_ITEMS ≤ itemsLen then
    (false, [Ev.notify "Maximum 500 items allowed. Please delete some items."])
  else (true, [])

/-- The new item built for an admitted upload: sanitized name, declared
type defaulting to `application/octet-stream`, inline `data:` payload. -/
def mkFileItem (f : FileInput) (freshId : Int) (now : Nat) : Item :=
  { id := freshId,
    type := "file",
    name := sanitizeText f.name,
    size := f.size,
    fileType := if f.ftype = "" then "application/octet-stream" else f.ftype,
    data := f.dataURL,
    important := false,
    createdAt := now }

/-- The `for (const file of files)` loop of `handleFileUpload`:
`items0` is the component state the validation closure captured, `cur`
the accumulator `currentItems`.  Ids are generated per admitted file.
Returns the final `currentItems` plus the trace of the loop. -/
def uploadFold (items0 : List Item) (cloudEnabled cloudOk : Bool)
    (url : Int → String → String) (now : Nat) :
    List FileInput → Int → List Item → List Item × List Ev
  | [], _, cur => (cur, [])
  | f :: fs, fid, cur =>
      let v := validateFile f items0.length
      if v.1 = false then
        let rest := uploadFold items0 cloudEnabled cloudOk url now fs fid cur
        (rest.1, v.2 ++ rest.2)
      else if f.readOk = false then
        let rest := uploadFold items0 cloudEnabled cloudOk url now fs fid cur
        (rest.1, Ev.notify ("Error uploading \"" ++ f.name ++ "\"") :: rest.2)
      else
        let newItem := mkFileItem f fid now
        if cloudEnabled then
          if cloudOk then
            let cloudItem := (saveItemToCloud url now newItem).1
            let rest := uploadFold items0 cloudEnabled cloudOk url now fs (fid + 1)
              (cloudItem :: cur)
            (rest.1, Ev.remoteWrite newItem :: rest.2)
          else
            let rest := uploadFold items0 cloudEnabled cloudOk url now fs (fid + 1)
              (newItem :: cur)
            (rest.1, Ev.remoteWrite newItem :: rest.2)
        else
          let rest := uploadFold items0 cloudEnabled cloudOk url now fs (fid + 1)
            (newItem :: cur)
          (rest.1, rest.2)

/-- Result of a mutation handler: the published authoritative collection,
the Local Durable Store contents afterwards, and the event trace. -/
structure MutResult where
  items : List Item
  db : LocalDB
  trace : List Ev
deriving DecidableEq, Repr

/-- `handleFileUpload`: validate each file against the captured state,
read it, build the item, upsert it to the cloud when enabled (adopting
the returned record, or keeping the local one if the cloud write threw),
then publish the accumulated collection once and persist it locally. -/
def handleFileUpload (files : List FileInput) (items : List Item) (db : LocalDB)
    (cloudEnabled cloudOk : Bool) (url : Int → String → String) (now : Nat)
    (baseId : Int) : MutResult :=
  if files.length = 0 then ⟨items, db, []⟩
  else
    ⟨(uploadFold items cloudEnabled cloudOk url now files baseId items).1,
     (saveItemsToDB (uploadFold items cloudEnabled cloudOk url now files baseId items).1
        false db).1,
     (uploadFold items cloudEnabled cloudOk url now files baseId items).2 ++
       [Ev.publish (uploadFold items cloudEnabled cloudOk url now files baseId items).1,
        Ev.localPersist (uploadFold items cloudEnabled cloudOk url now files baseId items).1,
        Ev.notify (toString files.length ++ " file(s) uploaded!")]⟩

/-- The note item built by `handleAddNote` from the trimmed text. -/
def noteItem (trimmed : String) (freshId : Int) (now : Nat) : Item :=
  { id := freshId, type := "note", content := trimmed, important := false,
    createdAt := now }

/-- `handleAddNote`: reject empty, over-long, or ceiling-violating notes
with a notification and no further effect; otherwise write the note to
the cloud when enabled, publish the prepended collection, persist it
locally, and notify. -/
def handleAddNote (noteText : String) (items : List Item) (db : LocalDB)
    (cloudEnabled : Bool) (freshId : Int) (now : Nat) : MutResult :=
  if jsTrim noteText = "" then ⟨items, db, [Ev.notify "Please enter a note"]⟩
  else if MAX_NOTE_LENGTH < (jsTrim noteText).length then
    ⟨items, db, [Ev.notify "Note is too long. Max 5000 characters."]⟩
  else if MAX_ITEMS ≤ items.length then
    ⟨items, db, [Ev.notify "Maximum 500 items allowed. Please delete some items."]⟩
  else
    ⟨noteItem (jsTrim noteText) freshId now :: items,
     (saveItemsToDB (noteItem (jsTrim noteText) freshId now :: items) false db).1,
     (if cloudEnabled then [Ev.remoteWrite (noteItem (jsTrim noteText) freshId now)]
      else []) ++
       [Ev.publish (noteItem (jsTrim noteText) freshId now :: items),
        Ev.localPersist (noteItem (jsTrim noteText) freshId now :: items),
        Ev.notify "Note added successfully!"]⟩

/-- The collection transformation of `toggleImportant`:
`items.map(item => item.id === id ? { ...item, important: !item.important } : item)`. -/
def toggleImportantList (id : Int) (items : List Item) : List Item :=
  items.map (fun item =>
    if item.id = id then { item with important := !item.important } else item)

/-- `toggleImportant(id)`: compute the toggled collection, write the
updated item to the cloud when enabled and present, publish, persist. -/
def toggleImportant (id : Int) (items : List Item) (db : LocalDB)
    (cloudEnabled : Bool) : MutResult :=
  ⟨toggleImportantList id items,
   (saveItemsToDB (toggleImportantList id items) false db).1,
   (if cloudEnabled then
      match (toggleImportantList id items).find? (fun item => item.id = id) with
      | some updated => [Ev.remoteWrite updated]
      | none => []
    else []) ++
     [Ev.publish (toggleImportantList id items),
      Ev.localPersist (toggleImportantList id items)]⟩

/-- `deleteItem(id)`: after the confirmation dialog, delete the item
from the cloud when enabled and present, publish the filtered
collection, and persist it locally with `forceEmpty = true`. -/
def deleteItem (id : Int) (items : List Item) (db : LocalDB)
    (cloudEnabled confirmed : Bool) : MutResult :=
  if confirmed = false then ⟨items, db, []⟩
  else
    ⟨items.filter (fun item => (item.id = id) = false),
     (saveItemsToDB (items.filter (fun item => (item.id = id) = false)) true db).1,
     (if cloudEnabled then
        match items.find? (fun item => item.id = id) with
        | some itemToDelete => [Ev.remoteDelete itemToDelete]
        | none => []
      else []) ++
       [Ev.publish (items.filter (fun item => (item.id = id) = false)),
        Ev.localPersist (items.filter (fun item => (item.id = id) = false)),
        Ev.notify "Item deleted"]⟩

/-- Session state seen by the real-time subscription callback. -/
structure PushState where
  items : List Item
  initialLoadDone : Bool
  syncStatus : String
deriving DecidableEq, Repr

/-- The `subscribeToItems` callback of the subscription effect: a push
delivered before `initialLoadDone.current` is set is dropped; afterwards
the pushed snapshot replaces the collection wholesale. -/
def onCloudPush (cloudItems : List Item) (s : PushState) : PushState :=
  if s.initialLoadDone then
    { s with items := cloudItems, syncStatus := "synced" }
  else s

/-- Result of the startup `loadItems` reconciliation.  `legacy` is the
content of the legacy `localStorage` key afterwards (`none` when absent
or erased); `docs` is the remote document collection afterwards. -/
structure LoadResult where
  items : List Item
  db : LocalDB
  docs : List Item
  legacy : Option (Option JValue)
  syncStatus : String

/-- Startup reconciliation `loadItems`: `configured` is
`checkFirebaseConfig()`, `fetchOk` tells whether the remote read
succeeded, `docs` the remote document collection, `db` the Local
Durable Store, `legacy` the legacy key (outer `none` = absent, inner
`none` = unparseable). -/
def loadItems (configured fetchOk : Bool) (docs : List Item) (db : LocalDB)
    (legacy : Option (Option JValue)) (url : Int → String → String)
    (now : Nat) : LoadResult :=
  if configured then
    let cloudItems :=
      loadItemsFromCloud configured
        (if fetchOk then Except.ok docs else Except.error ())
    if 0 < cloudItems.length then
      let save := saveItemsToDB cloudItems false db
      ⟨cloudItems, save.1, docs, legacy, "synced"⟩
    else
      let dbItems := loadItemsFromDB db
      if 0 < dbItems.length then
        let newDocs := dbItems.foldl
          (fun acc item => upsertDoc (saveItemToCloud url now item).1 acc) docs
        ⟨dbItems, db, newDocs, legacy, "synced"⟩
      else ⟨[], db, docs, legacy, "syncing"⟩
  else
    let dbItems := loadItemsFromDB db
    if 0 < dbItems.length then ⟨dbItems, db, docs, legacy, "offline"⟩
    else
      match legacy with
      | none => ⟨[], db, docs, none, "offline"⟩
      | some raw =>
          let parsed := (safeJSONParse raw).map jDecodeItem
          if 0 < parsed.length then
            let save := saveItemsToDB parsed false db
            ⟨parsed, save.1, docs, none, "offline"⟩
          else ⟨parsed, db, docs, some raw, "offline"⟩


/-- Events other than user notifications. -/
def isCoreEv : Ev → Bool
  | Ev.notify _ => false
  | _ => true

/-- Position of an event kind in the order the handlers execute them:
remote operations, then the optimistic publish, then the local persist. -/
def evStage : Ev → Nat
  | Ev.remoteWrite _ => 1
  | Ev.remoteDelete _ => 1
  | Ev.publish _ => 2
  | Ev.localPersist _ => 3
  | Ev.notify _ => 4

/-- The non-notification events of a trace appear in nondecreasing
stage order: remote writes, then the publish, then the local persist. -/
def stageOrdered (tr : List Ev) : Prop :=
  (tr.filter isCoreEv).Pairwise (fun a b => evStage a ≤ evStage b)

/-- What the admission policy guarantees about a file item it admits:
the size ceiling holds and the stored media type is either on the
allow-list or the `application/octet-stream` default used when the
browser declared no type. -/
def admittedFileOK (it : Item) : Prop :=
  it.size ≤ MAX_FILE_SIZE ∧
  (ALLOWED_FILE_TYPES.contains it.fileType = true ∨
   it.fileType = "application/octet-stream")

/-- Concrete download-URL function used in concrete evaluations. -/
def urlOf : Int → String → String :=
  fun i n => "https://dl/" ++ toString i ++ "_" ++ n

/-- A file item whose payload is still an inline data URL. -/
def inlineFile : Item :=
  { id := 1, type := "file", name := "a", size := 1, fileType := "text/plain",
    data := "data:text/plain;base64,QQ==", createdAt := 5 }

/-- A minimal note item. -/
def dummyNote : Item := { id := 0, type := "note" }

/-- A small valid file input. -/
def filePlain : FileInput :=
  { name := "a", size := 1, ftype := "text/plain", dataURL := "data:x" }

/-- A file input with an empty declared media type. -/
def fileNoType : FileInput :=
  { name := "b", size := 1, ftype := "", dataURL := "data:y" }

/-- A file input over the size ceiling. -/
def fileTooBig : FileInput :=
  { name := "c", size := MAX_FILE_SIZE + 1, ftype := "text/plain",
    dataURL := "data:z" }

/-- A legacy entry carrying both an id and a string type. -/
def goodEntry : JValue :=
  JValue.jobj [("id", JValue.jnum 3), ("type", JValue.jstr "note"),
               ("content", JValue.jstr "x")]

theorem saveItemsToDB_nonempty (items : List Item) (force : Bool) (db : LocalDB)
    (h : items ≠ []) : saveItemsToDB items force db = (items, true) := by
  unfold saveItemsToDB
  rw [if_neg]
  rintro ⟨h0, -, -⟩
  exact h (List.length_eq_zero.mp h0)

theorem validateFile_notify_only (f : FileInput) (n : Nat) :
    ∀ e ∈ (validateFile f n).2, isCoreEv e = false := by
  unfold validateFile
  split
  · intro e he; simp at he; subst he; rfl
  · split
    · intro e he; simp at he; subst he; rfl
    · split
      · intro e he; simp at he; subst he; rfl
      · intro e he; simp at he

theorem uploadFold_trace_stage (items0 : List Item) (cloudEnabled cloudOk : Bool)
    (url : Int → String → String) (now : Nat) :
    ∀ (fs : List FileInput) (fid : Int) (cur : List Item),
      ∀ e ∈ (uploadFold items0 cloudEnabled cloudOk url now fs fid cur).2,
        isCoreEv e = true → evStage e = 1 := by
  intro fs
  induction fs with
  | nil =>
      intro fid cur e he
      simp [uploadFold] at he
  | cons f fs ih =>
      intro fid cur e he hcore
      unfold uploadFold at he
      by_cases hv : (validateFile f items0.length).1 = false
      · rw [if_pos hv] at he
        simp only [List.mem_append] at he
        rcases he with he | he
        · exact absurd (validateFile_notify_only f items0.length e he) (by simp [hcore])
        · exact ih fid cur e he hcore
      · rw [if_neg hv] at he
        by_cases hr : f.readOk = false
        · rw [if_pos hr] at he
          simp only [List.mem_cons] at he
          rcases he with he | he
          · subst he; simp [isCoreEv] at hcore
          · exact ih fid cur e he hcore
        · rw [if_neg hr] at he
          by_cases hce : cloudEnabled = true
          · rw [if_pos hce] at he
            by_cases hco : cloudOk = true
            · rw [if_pos hco] at he
              simp only [List.mem_cons] at he
              rcases he with he | he
              · subst he; rfl
              · exact ih _ _ e he hcore
            · rw [if_neg hco] at he
              simp only [List.mem_cons] at he
              rcases he with he | he
              · subst he; rfl
              · exact ih _ _ e he hcore
          · rw [if_neg hce] at he
            exact ih _ _ e he hcore

theorem stageOrdered_nil : stageOrdered [] := by
  simp [stageOrdered]

theorem handleAddNote_stageOrdered (noteText : String) (items : List Item)
    (db : LocalDB) (cloudEnabled : Bool) (freshId : Int) (now : Nat) :
    stageOrdered (handleAddNote noteText items db cloudEnabled freshId now).trace := by
  unfold handleAddNote stageOrdered
  split_ifs <;> simp [isCoreEv, evStage, List.pairwise_cons, List.filter_append]

theorem toggleImportant_stageOrdered (id : Int) (items : List Item) (db : LocalDB)
    (cloudEnabled : Bool) :
    stageOrdered (toggleImportant id items db cloudEnabled).trace := by
  unfold toggleImportant stageOrdered
  split_ifs
  · cases hf : (toggleImportantList id items).find? (fun item => item.id = id) <;>
      simp [hf, isCoreEv, evStage, List.pairwise_cons, List.filter_append]
  · simp [isCoreEv, evStage, List.pairwise_cons, List.filter_append]

theorem deleteItem_stageOrdered (id : Int) (items : List Item) (db : LocalDB)
    (cloudEnabled confirmed : Bool) :
    stageOrdered (deleteItem id items db cloudEnabled confirmed).trace := by
  unfold deleteItem stageOrdered
  split_ifs
  · simp [isCoreEv]
  · cases hf : items.find? (fun item => item.id = id) <;>
      simp [hf, isCoreEv, evStage, List.pairwise_cons, List.filter_append]
  · simp [isCoreEv, evStage, List.pairwise_cons, List.filter_append]

theorem handleFileUpload_stageOrdered (files : List FileInput) (items : List Item)
    (db : LocalDB) (cloudEnabled cloudOk : Bool) (url : Int → String → String)
    (now : Nat) (baseId : Int) :
    stageOrdered (handleFileUpload files items db cloudEnabled cloudOk url now baseId).trace := by
  unfold handleFileUpload
  split
  · exact stageOrdered_nil
  · unfold stageOrdered
    rw [List.filter_append]
    rw [List.pairwise_append]
    refine ⟨?_, ?_, ?_⟩
    · apply List.pairwise_of_forall_mem_list
      intro a ha b hb
      rw [List.mem_filter] at ha hb
      rw [uploadFold_trace_stage items cloudEnabled cloudOk url now files baseId items a ha.1 ha.2]
      rw [uploadFold_trace_stage items cloudEnabled cloudOk url now files baseId items b hb.1 hb.2]
    · simp [isCoreEv, evStage, List.pairwise_cons]
    · intro a ha b hb
      rw [List.mem_filter] at ha hb
      rw [uploadFold_trace_stage items cloudEnabled cloudOk url now files baseId items a ha.1 ha.2]
      have hb1 := hb.1
      have hb2 := hb.2
      simp only [List.mem_cons, List.not_mem_nil, or_false] at hb1
      rcases hb1 with rfl | rfl | rfl
      · simp [evStage]
      · simp [evStage]
      · simp [isCoreEv] at hb2

theorem validateFile_true (f : FileInput) (n : Nat)
    (h : (validateFile f n).1 = true) :
    f.size ≤ MAX_FILE_SIZE ∧
    (f.ftype = "" ∨ ALLOWED_FILE_TYPES.contains f.ftype = true) ∧
    n < MAX_ITEMS := by
  unfold validateFile at h
  split at h
  · simp at h
  · split at h
    · simp at h
    · split at h
      · simp at h
      · rename_i h1 h2 h3
        refine ⟨by omega, ?_, by omega⟩
        by_cases he : f.ftype = ""
        · exact Or.inl he
        · right
          rcases Bool.eq_false_or_eq_true (ALLOWED_FILE_TYPES.contains f.ftype) with hc | hc
          · exact hc
          · exact absurd ⟨he, hc⟩ h2

theorem mkFileItem_ok (f : FileInput) (n : Nat) (fid : Int) (now : Nat)
    (h : (validateFile f n).1 = true) :
    admittedFileOK (mkFileItem f fid now) := by
  obtain ⟨hs, ht, -⟩ := validateFile_true f n h
  unfold admittedFileOK mkFileItem
  refine ⟨hs, ?_⟩
  rcases ht with ht | ht
  · rw [if_pos ht]; exact Or.inr rfl
  · by_cases he : f.ftype = ""
    · rw [if_pos he]; exact Or.inr rfl
    · rw [if_neg he]; exact Or.inl ht

theorem saveItemToCloud_fields (url : Int → String → String) (now : Nat) (item : Item) :
    (saveItemToCloud url now item).1.size = item.size ∧
    (saveItemToCloud url now item).1.fileType = item.fileType := by
  unfold saveItemToCloud
  split
  · exact ⟨rfl, rfl⟩
  · exact ⟨rfl, rfl⟩

theorem admittedFileOK_saveItemToCloud (url : Int → String → String) (now : Nat)
    (item : Item) (h : admittedFileOK item) :
    admittedFileOK (saveItemToCloud url now item).1 := by
  obtain ⟨hs, ht⟩ := saveItemToCloud_fields url now item
  exact ⟨hs ▸ h.1, ht ▸ h.2⟩

theorem uploadFold_items_ok (items0 : List Item) (ce co : Bool)
    (url : Int → String → String) (now : Nat) :
    ∀ (fs : List FileInput) (fid : Int) (cur : List Item),
      ∀ it ∈ (uploadFold items0 ce co url now fs fid cur).1,
        it ∈ cur ∨ admittedFileOK it := by
  intro fs
  induction fs with
  | nil =>
      intro fid cur it hit
      exact Or.inl (by simpa [uploadFold] using hit)
  | cons f fs ih =>
      intro fid cur it hit
      unfold uploadFold at hit
      by_cases hv : (validateFile f items0.length).1 = false
      · rw [if_pos hv] at hit
        exact ih fid cur it hit
      · rw [if_neg hv] at hit
        have hv2 : (validateFile f items0.length).1 = true := by
          revert hv; cases (validateFile f items0.length).1 <;> simp
        by_cases hr : f.readOk = false
        · rw [if_pos hr] at hit
          exact ih fid cur it hit
        · rw [if_neg hr] at hit
          by_cases hce : ce = true
          · rw [if_pos hce] at hit
            by_cases hco : co = true
            · rw [if_pos hco] at hit
              rcases ih _ _ it hit with hmem | hok
              · rcases List.mem_cons.mp hmem with rfl | hmem2
                · exact Or.inr (admittedFileOK_saveItemToCloud url now _
                    (mkFileItem_ok f items0.length fid now hv2))
                · exact Or.inl hmem2
              · exact Or.inr hok
            · rw [if_neg hco] at hit
              rcases ih _ _ it hit with hmem | hok
              · rcases List.mem_cons.mp hmem with rfl | hmem2
                · exact Or.inr (mkFileItem_ok f items0.length fid now hv2)
                · exact Or.inl hmem2
              · exact Or.inr hok
          · rw [if_neg hce] at hit
            rcases ih _ _ it hit with hmem | hok
            · rcases List.mem_cons.mp hmem with rfl | hmem2
              · exact Or.inr (mkFileItem_ok f items0.length fid now hv2)
              · exact Or.inl hmem2
            · exact Or.inr hok

theorem uploadFold_remoteWrite_ok (items0 : List Item) (ce co : Bool)
    (url : Int → String → String) (now : Nat) :
    ∀ (fs : List FileInput) (fid : Int) (cur : List Item) (i : Item),
      Ev.remoteWrite i ∈ (uploadFold items0 ce co url now fs fid cur).2 →
        admittedFileOK i := by
  intro fs
  induction fs with
  | nil =>
      intro fid cur i hi
      simp [uploadFold] at hi
  | cons f fs ih =>
      intro fid cur i hi
      unfold uploadFold at hi
      by_cases hv : (validateFile f items0.length).1 = false
      · rw [if_pos hv] at hi
        rcases List.mem_append.mp hi with hi | hi
        · have := validateFile_notify_only f items0.length _ hi
          simp [isCoreEv] at this
        · exact ih fid cur i hi
      · rw [if_neg hv] at hi
        have hv2 : (validateFile f items0.length).1 = true := by
          revert hv; cases (validateFile f items0.length).1 <;> simp
        by_cases hr : f.readOk = false
        · rw [if_pos hr] at hi
          rcases List.mem_cons.mp hi with hi | hi
          · simp at hi
          · exact ih fid cur i hi
        · rw [if_neg hr] at hi
          by_cases hce : ce = true
          · rw [if_pos hce] at hi
            by_cases hco : co = true
            · rw [if_pos hco] at hi
              rcases List.mem_cons.mp hi with hi | hi
              · injection hi with h2
                subst h2
                exact mkFileItem_ok f items0.length fid now hv2
              · exact ih _ _ i hi
            · rw [if_neg hco] at hi
              rcases List.mem_cons.mp hi with hi | hi
              · injection hi with h2
                subst h2
                exact mkFileItem_ok f items0.length fid now hv2
              · exact ih _ _ i hi
          · rw [if_neg hce] at hi
            exact ih _ _ i hi

theorem addNote_reject (noteText : String) (items : List Item) (db : LocalDB)
    (cloudEnabled : Bool) (freshId : Int) (now : Nat)
    (h : jsTrim noteText = "" ∨ MAX_NOTE_LENGTH < (jsTrim noteText).length ∨
         MAX_ITEMS ≤ items.length) :
    (handleAddNote noteText items db cloudEnabled freshId now).items = items ∧
    (handleAddNote noteText items db cloudEnabled freshId now).db = db ∧
    ∃ msg, (handleAddNote noteText items db cloudEnabled freshId now).trace
      = [Ev.notify msg] := by
  unfold handleAddNote
  by_cases h1 : jsTrim noteText = ""
  · rw [if_pos h1]; exact ⟨rfl, rfl, _, rfl⟩
  · rw [if_neg h1]
    by_cases h2 : MAX_NOTE_LENGTH < (jsTrim noteText).length
    · rw [if_pos h2]; exact ⟨rfl, rfl, _, rfl⟩
    · rw [if_neg h2]
      have h3 : MAX_ITEMS ≤ items.length := by tauto
      rw [if_pos h3]; exact ⟨rfl, rfl, _, rfl⟩

theorem addNote_admit (noteText : String) (items : List Item) (db : LocalDB)
    (cloudEnabled : Bool) (freshId : Int) (now : Nat)
    (h1 : jsTrim noteText ≠ "") (h2 : (jsTrim noteText).length ≤ MAX_NOTE_LENGTH)
    (h3 : items.length < MAX_ITEMS) :
    (handleAddNote noteText items db cloudEnabled freshId now).items
      = noteItem (jsTrim noteText) freshId now :: items ∧
    (noteItem (jsTrim noteText) freshId now).content.length ≤ MAX_NOTE_LENGTH := by
  unfold handleAddNote
  rw [if_neg h1, if_neg (by omega), if_neg (by omega)]
  exact ⟨rfl, h2⟩

/-- Claim C1: startup reconciliation precedence.  When remote sync is
configured and the remote fetch returns a non-empty collection, that
collection is adopted as the authoritative in-memory collection and is
mirrored into the Local Durable Store via the replace-all operation,
regardless of what the local store held. -/
theorem claim1_remote_precedence (docs : List Item) (db : LocalDB)
    (legacy : Option (Option JValue)) (url : Int → String → String) (now : Nat)
    (h : loadItemsFromCloud true (Except.ok docs) ≠ []) :
    (loadItems true true docs db legacy url now).items
        = loadItemsFromCloud true (Except.ok docs) ∧
    (loadItems true true docs db legacy url now).db
        = loadItemsFromCloud true (Except.ok docs) := by
  unfold loadItems
  rw [if_pos rfl]
  simp only [if_pos rfl, reduceIte]
  rw [if_pos (List.length_pos.mpr h), saveItemsToDB_nonempty _ _ _ h]
  exact ⟨rfl, rfl⟩

/-- Witness for claim C1: the remote store holds one note while the
local store holds a different file record; the note wins. -/
theorem claim1_witness :
    (loadItems true true [dummyNote] [inlineFile] none urlOf 7).items
        = loadItemsFromCloud true (Except.ok [dummyNote]) ∧
    (loadItems true true [dummyNote] [inlineFile] none urlOf 7).db
        = loadItemsFromCloud true (Except.ok [dummyNote]) :=
  claim1_remote_precedence [dummyNote] [inlineFile] none urlOf 7 (by decide)

/-- Claim C2: empty-overwrite guard.  A call of the local replace-all
operation with an empty collection that is not explicitly forced, while
the Local Durable Store holds records, skips the write and leaves the
existing records unchanged; the empty overwrite is never executed. -/
theorem claim2_empty_overwrite_guard (db : LocalDB) (h : 0 < db.length) :
    saveItemsToDB [] false db = (db, false) := by
  unfold saveItemsToDB
  exact if_pos ⟨rfl, rfl, h⟩

/-- Witness for claim C2 on a one-record store. -/
theorem claim2_witness :
    saveItemsToDB [] false [dummyNote] = ([dummyNote], false) :=
  claim2_empty_overwrite_guard [dummyNote] (by decide)

/-- Claim C3: real-time push handling.  A push callback delivered before
the initial-load flag is set leaves the session state (in particular the
authoritative collection) unchanged; a push delivered after the flag is
set replaces the authoritative collection wholesale with the pushed
snapshot. -/
theorem claim3_push_ordering (cloudItems : List Item) (s : PushState) :
    (s.initialLoadDone = false → onCloudPush cloudItems s = s) ∧
    (s.initialLoadDone = true →
      (onCloudPush cloudItems s).items = cloudItems ∧
      (onCloudPush cloudItems s).syncStatus = "synced") := by
  unfold onCloudPush
  constructor
  · intro h; rw [h]; rfl
  · intro h; rw [h]; exact ⟨rfl, rfl⟩

/-- Witness for claim C3 at concrete session states. -/
theorem claim3_witness :
    onCloudPush [dummyNote] ⟨[inlineFile], false, "checking"⟩
      = ⟨[inlineFile], false, "checking"⟩ ∧
    (onCloudPush [dummyNote] ⟨[inlineFile], true, "syncing"⟩).items = [dummyNote] :=
  ⟨(claim3_push_ordering [dummyNote] ⟨[inlineFile], false, "checking"⟩).1 rfl,
   ((claim3_push_ordering [dummyNote] ⟨[inlineFile], true, "syncing"⟩).2 rfl).1⟩

/-- Counterexample for claim C4: in the startup path that pushes local
data to an empty cloud, the upsert transforms the inline file record
(the cloud document collection receives the transformed record), yet the
engine keeps the untransformed local record as the authoritative copy,
so the returned record is not adopted. -/
theorem claim4_counterexample :
    inlineFile.type = "file" ∧
    strStartsWith inlineFile.data "data:" = true ∧
    (loadItems true true [] [inlineFile] none urlOf 7).docs
      = [(saveItemToCloud urlOf 7 inlineFile).1] ∧
    (loadItems true true [] [inlineFile] none urlOf 7).items = [inlineFile] ∧
    inlineFile.isCloudStored = false ∧
    (saveItemToCloud urlOf 7 inlineFile).1.isCloudStored = true ∧
    (loadItems true true [] [inlineFile] none urlOf 7).items
      ≠ [(saveItemToCloud urlOf 7 inlineFile).1] := by
  refine ⟨rfl, rfl, rfl, rfl, rfl, rfl, ?_⟩
  decide

/-- Claim C4 (amended): the upsert of a file item whose payload is still
inline uploads the payload bytes to blob storage keyed by id and name,
replaces the payload with the retrieval reference, sets the remote flag,
stamps updatedAt, writes the record and returns it; the file-upload
handler adopts the returned record as the new authoritative copy, while
the startup local-to-cloud push discards the returned record and keeps
the local inline copy authoritative in memory. -/
theorem claim4_upsert_contract :
    (∀ (url : Int → String → String) (now : Nat) (item : Item),
       item.type = "file" → item.data ≠ "" → strStartsWith item.data "data:" = true →
       saveItemToCloud url now item
         = ({ item with data := url item.id item.name, isCloudStored := true,
                        updatedAt := some now },
            [CloudEv.blobUpload (blobKey item) item.data,
             CloudEv.docWrite (toString item.id)
               { item with data := url item.id item.name, isCloudStored := true,
                           updatedAt := some now }])) ∧
    (∀ (f : FileInput) (items : List Item) (db : LocalDB)
       (url : Int → String → String) (now : Nat) (fid : Int),
       (validateFile f items.length).1 = true → f.readOk = true →
       (handleFileUpload [f] items db true true url now fid).items
         = (saveItemToCloud url now (mkFileItem f fid now)).1 :: items) ∧
    (∀ (docs db : List Item) (legacy : Option (Option JValue))
       (url : Int → String → String) (now : Nat),
       loadItemsFromCloud true (Except.ok docs) = [] →
       loadItemsFromDB db ≠ [] →
       (loadItems true true docs db legacy url now).items = loadItemsFromDB db) := by
  refine ⟨fun url now item h1 h2 h3 => ?_, fun f items db url now fid hv hr => ?_,
    fun docs db legacy url now hc hdb => ?_⟩
  · unfold saveItemToCloud
    rw [if_pos ⟨h1, h2, h3⟩]
  · unfold handleFileUpload
    rw [if_neg (by simp)]
    unfold uploadFold
    rw [if_neg (by simp [hv]), if_neg (by simp [hr]), if_pos rfl, if_pos rfl]
    rfl
  · unfold loadItems
    rw [if_pos rfl]
    simp only [reduceIte]
    rw [hc]
    simp only [List.length_nil, lt_self_iff_false, if_false]
    rw [if_pos (List.length_pos.mpr hdb)]

/-- Witness for the amended claim C4 at concrete inputs. -/
theorem claim4_witness :
    saveItemToCloud urlOf 7 inlineFile
      = ({ inlineFile with data := urlOf inlineFile.id inlineFile.name,
                           isCloudStored := true, updatedAt := some 7 },
         [CloudEv.blobUpload (blobKey inlineFile) inlineFile.data,
          CloudEv.docWrite (toString inlineFile.id)
            { inlineFile with data := urlOf inlineFile.id inlineFile.name,
                              isCloudStored := true, updatedAt := some 7 }]) ∧
    (handleFileUpload [filePlain] [] [] true true urlOf 3 10).items
      = [(saveItemToCloud urlOf 3 (mkFileItem filePlain 10 3)).1] ∧
    (loadItems true true [] [inlineFile] none urlOf 7).items
      = loadItemsFromDB [inlineFile] :=
  ⟨claim4_upsert_contract.1 urlOf 7 inlineFile rfl (by decide) rfl,
   claim4_upsert_contract.2.1 filePlain [] [] urlOf 3 10 (by decide) rfl,
   claim4_upsert_contract.2.2 [] [inlineFile] none urlOf 7 rfl (by decide)⟩

/-- Counterexample for claim C5: on a concrete add-note intent with the
cloud enabled, the remote write is the first event of the trace and the
optimistic publish only follows it, so the claimed order (validate, then
publish, then remote write, then persist) does not hold. -/
theorem claim5_counterexample :
    (handleAddNote "hi" [] [] true 5 9).trace
      = [Ev.remoteWrite (noteItem "hi" 5 9),
         Ev.publish [noteItem "hi" 5 9],
         Ev.localPersist [noteItem "hi" 5 9],
         Ev.notify "Note added successfully!"] ∧
    List.indexOf (Ev.remoteWrite (noteItem "hi" 5 9)) (handleAddNote "hi" [] [] true 5 9).trace
      < List.indexOf (Ev.publish [noteItem "hi" 5 9]) (handleAddNote "hi" [] [] true 5 9).trace := by
  refine ⟨rfl, ?_⟩
  decide

/-- Claim C5 (amended): within every single mutation intent the steps
execute in the fixed order validate, then the remote write for the
changed item, then the optimistic publish of the authoritative
collection, then the persist of the full collection to the Local
Durable Store. -/
theorem claim5_step_order :
    (∀ (noteText : String) (items : List Item) (db : LocalDB) (cloudEnabled : Bool)
       (freshId : Int) (now : Nat),
       stageOrdered (handleAddNote noteText items db cloudEnabled freshId now).trace) ∧
    (∀ (id : Int) (items : List Item) (db : LocalDB) (cloudEnabled : Bool),
       stageOrdered (toggleImportant id items db cloudEnabled).trace) ∧
    (∀ (id : Int) (items : List Item) (db : LocalDB) (cloudEnabled confirmed : Bool),
       stageOrdered (deleteItem id items db cloudEnabled confirmed).trace) ∧
    (∀ (files : List FileInput) (items : List Item) (db : LocalDB)
       (cloudEnabled cloudOk : Bool) (url : Int → String → String) (now : Nat)
       (baseId : Int),
       stageOrdered (handleFileUpload files items db cloudEnabled cloudOk url now baseId).trace) :=
  ⟨handleAddNote_stageOrdered, toggleImportant_stageOrdered,
   deleteItem_stageOrdered, handleFileUpload_stageOrdered⟩

set_option maxRecDepth 4000 in
/-- Claim C6 evaluated at the failing input: with 499 items in the
collection, a two-file upload is admitted in full because each file is
validated against the pre-batch size, leaving 501 items, above the
configured maximum of 500. -/
theorem claim6_ceiling_overrun :
    (handleFileUpload [filePlain, filePlain] (List.replicate 499 dummyNote) []
        false false urlOf 3 10).items.length = 501 ∧
    MAX_ITEMS < (handleFileUpload [filePlain, filePlain] (List.replicate 499 dummyNote) []
        false false urlOf 3 10).items.length := by
  refine ⟨?_, ?_⟩ <;> decide

/-- Counterexample for claim C7: a file with an empty declared media
type is admitted and stored with the media type application/octet-stream,
which is not on the configured allow-list; moreover a batch whose only
file violates the size rule still executes the local persist call. -/
theorem claim7_counterexample :
    (handleFileUpload [fileNoType] [] [] false false urlOf 3 10).items
      = [mkFileItem fileNoType 10 3] ∧
    (mkFileItem fileNoType 10 3).fileType = "application/octet-stream" ∧
    ALLOWED_FILE_TYPES.contains (mkFileItem fileNoType 10 3).fileType = false ∧
    Ev.localPersist [] ∈ (handleFileUpload [fileTooBig] [] [] false false urlOf 3 10).trace := by
  refine ⟨rfl, rfl, ?_, ?_⟩
  · decide
  · decide

/-- Claim C7 (amended): a note that is empty, over the character
ceiling, or over the item-count ceiling is rejected with a user-facing
message, leaving collection and local store untouched; an admitted note
respects the character ceiling; every file admitted by the upload path
respects the size ceiling and carries either an allow-listed media type
or the application/octet-stream default used for files with no declared
type; and every remote write of the upload path is for such an admitted
file (a rejected file is never written), though the upload handler still
persists the batch collection locally even when files were rejected. -/
theorem claim7_admission_policy :
    (∀ (noteText : String) (items : List Item) (db : LocalDB) (cloudEnabled : Bool)
       (freshId : Int) (now : Nat),
       (jsTrim noteText = "" ∨ MAX_NOTE_LENGTH < (jsTrim noteText).length ∨
           MAX_ITEMS ≤ items.length) →
       (handleAddNote noteText items db cloudEnabled freshId now).items = items ∧
       (handleAddNote noteText items db cloudEnabled freshId now).db = db ∧
       ∃ msg, (handleAddNote noteText items db cloudEnabled freshId now).trace
         = [Ev.notify msg]) ∧
    (∀ (noteText : String) (items : List Item) (db : LocalDB) (cloudEnabled : Bool)
       (freshId : Int) (now : Nat),
       jsTrim noteText ≠ "" → (jsTrim noteText).length ≤ MAX_NOTE_LENGTH →
       items.length < MAX_ITEMS →
       (handleAddNote noteText items db cloudEnabled freshId now).items
         = noteItem (jsTrim noteText) freshId now :: items ∧
       (noteItem (jsTrim noteText) freshId now).content.length ≤ MAX_NOTE_LENGTH) ∧
    (∀ (files : List FileInput) (items : List Item) (db : LocalDB)
       (cloudEnabled cloudOk : Bool) (url : Int → String → String) (now : Nat)
       (baseId : Int),
       ∀ it ∈ (handleFileUpload files items db cloudEnabled cloudOk url now baseId).items,
         it ∈ items ∨ admittedFileOK it) ∧
    (∀ (files : List FileInput) (items : List Item) (db : LocalDB)
       (cloudEnabled cloudOk : Bool) (url : Int → String → String) (now : Nat)
       (baseId : Int) (i : Item),
       Ev.remoteWrite i ∈ (handleFileUpload files items db cloudEnabled cloudOk url now baseId).trace →
         admittedFileOK i) := by
  refine ⟨addNote_reject, addNote_admit, ?_, ?_⟩
  · intro files items db cloudEnabled cloudOk url now baseId it hit
    unfold handleFileUpload at hit
    by_cases hf : files.length = 0
    · rw [if_pos hf] at hit
      exact Or.inl hit
    · rw [if_neg hf] at hit
      exact uploadFold_items_ok items cloudEnabled cloudOk url now files baseId items it hit
  · intro files items db cloudEnabled cloudOk url now baseId i hi
    unfold handleFileUpload at hi
    by_cases hf : files.length = 0
    · rw [if_pos hf] at hi
      simp at hi
    · rw [if_neg hf] at hi
      rcases List.mem_append.mp hi with hi | hi
      · exact uploadFold_remoteWrite_ok items cloudEnabled cloudOk url now files baseId items i hi
      · simp at hi

set_option maxRecDepth 4000 in
/-- Witness for the amended claim C7 at concrete inputs. -/
theorem claim7_witness :
    (handleAddNote "hi" (List.replicate 500 dummyNote) [] false 5 9).items
        = List.replicate 500 dummyNote ∧
    (handleAddNote "hi" [] [] false 5 9).items = [noteItem (jsTrim "hi") 5 9] ∧
    (mkFileItem fileNoType 10 3 ∈ ([] : List Item) ∨
       admittedFileOK (mkFileItem fileNoType 10 3)) :=
  ⟨(claim7_admission_policy.1 "hi" (List.replicate 500 dummyNote) [] false 5 9
      (Or.inr (Or.inr (by decide)))).1,
   (claim7_admission_policy.2.1 "hi" [] [] false 5 9 (by decide) (by decide)
      (by decide)).1,
   claim7_admission_policy.2.2.1 [fileNoType] [] [] false false urlOf 3 10
     (mkFileItem fileNoType 10 3) (by decide)⟩

/-- Counterexample for claim C8: the legacy key holds a parseable list
whose only entry is invalid; the import runs (the entry is filtered out
and the empty result adopted), but the legacy key is not erased. -/
theorem claim8_counterexample :
    (loadItems false false [] [] (some (some (JValue.jarr [JValue.jnum 1]))) urlOf 7).items
      = [] ∧
    (loadItems false false [] [] (some (some (JValue.jarr [JValue.jnum 1]))) urlOf 7).legacy
      = some (some (JValue.jarr [JValue.jnum 1])) ∧
    (loadItems false false [] [] (some (some (JValue.jarr [JValue.jnum 1]))) urlOf 7).legacy
      ≠ none := by
  refine ⟨rfl, rfl, ?_⟩
  intro h
  rw [show (loadItems false false [] [] (some (some (JValue.jarr [JValue.jnum 1]))) urlOf 7).legacy
        = some (some (JValue.jarr [JValue.jnum 1])) from rfl] at h
  exact Option.noConfusion h

/-- Claim C8 (amended): with remote sync unconfigured and an empty
Local Durable Store, the legacy key is read once and parsed safely: a
total parse failure yields an empty import, every surviving entry is an
object carrying an id and a string type field, and the survivors are
adopted as the authoritative collection; when at least one entry
survives they are also persisted to the Local Durable Store and the
legacy key is erased, while an import with no survivors leaves the
store empty and the legacy key in place. -/
theorem claim8_legacy_import :
    safeJSONParse none = [] ∧
    (∀ (v : Option JValue), ∀ j ∈ safeJSONParse v, ∃ fields,
        j = JValue.jobj fields ∧ (jLookup "id" fields).isSome = true ∧
        ∃ s, jLookup "type" fields = some (JValue.jstr s)) ∧
    (∀ (fetchOk : Bool) (docs : List Item) (raw : Option JValue)
       (url : Int → String → String) (now : Nat),
       (loadItems false fetchOk docs [] (some raw) url now).items
           = (safeJSONParse raw).map jDecodeItem ∧
       ((safeJSONParse raw).map jDecodeItem ≠ [] →
          (loadItems false fetchOk docs [] (some raw) url now).db
              = (safeJSONParse raw).map jDecodeItem ∧
          (loadItems false fetchOk docs [] (some raw) url now).legacy = none) ∧
       ((safeJSONParse raw).map jDecodeItem = [] →
          (loadItems false fetchOk docs [] (some raw) url now).db = [] ∧
          (loadItems false fetchOk docs [] (some raw) url now).legacy = some raw)) := by
  refine ⟨rfl, fun v j hj => ?_, fun fetchOk docs raw url now => ?_⟩
  · match v with
    | none => simp [safeJSONParse] at hj
    | some JValue.jnull => simp [safeJSONParse] at hj
    | some (JValue.jbool b) => simp [safeJSONParse] at hj
    | some (JValue.jnum n) => simp [safeJSONParse] at hj
    | some (JValue.jstr s) => simp [safeJSONParse] at hj
    | some (JValue.jobj fields) => simp [safeJSONParse] at hj
    | some (JValue.jarr xs) =>
        rw [safeJSONParse] at hj
        have hval := List.of_mem_filter hj
        match j with
        | JValue.jnull => simp [legacyEntryValid] at hval
        | JValue.jbool b => simp [legacyEntryValid] at hval
        | JValue.jnum n => simp [legacyEntryValid] at hval
        | JValue.jstr s => simp [legacyEntryValid] at hval
        | JValue.jarr ys => simp [legacyEntryValid] at hval
        | JValue.jobj fields =>
            refine ⟨fields, rfl, ?_, ?_⟩
            · rw [legacyEntryValid] at hval
              exact (Bool.and_eq_true _ _ |>.mp hval).1
            · rw [legacyEntryValid] at hval
              have ht := (Bool.and_eq_true _ _ |>.mp hval).2
              match hty : jLookup "type" fields with
              | some (JValue.jstr s) => exact ⟨s, rfl⟩
              | none => rw [hty] at ht; simp at ht
              | some JValue.jnull => rw [hty] at ht; simp at ht
              | some (JValue.jbool b) => rw [hty] at ht; simp at ht
              | some (JValue.jnum n) => rw [hty] at ht; simp at ht
              | some (JValue.jarr ys) => rw [hty] at ht; simp at ht
              | some (JValue.jobj fs2) => rw [hty] at ht; simp at ht
  · unfold loadItems
    rw [if_neg Bool.false_ne_true]
    simp only [loadItemsFromDB, List.insertionSort, List.length_nil, lt_self_iff_false,
      if_false]
    by_cases hp : 0 < ((safeJSONParse raw).map jDecodeItem).length
    · rw [if_pos hp]
      have hne : (safeJSONParse raw).map jDecodeItem ≠ [] := by
        intro he; rw [he] at hp; exact lt_irrefl 0 hp
      rw [saveItemsToDB_nonempty _ _ _ hne]
      refine ⟨rfl, fun _ => ⟨rfl, rfl⟩, fun he => absurd he hne⟩
    · rw [if_neg hp]
      have he : (safeJSONParse raw).map jDecodeItem = [] := by
        rcases List.eq_nil_or_concat ((safeJSONParse raw).map jDecodeItem) with he | ⟨l, a, he⟩
        · exact he
        · exfalso; apply hp; rw [he]; simp
      refine ⟨rfl, fun hne => absurd he hne, fun _ => ⟨rfl, rfl⟩⟩

/-- Witness for the amended claim C8: a one-entry legacy list whose
entry is valid is imported, persisted and the key erased. -/
theorem claim8_witness :
    safeJSONParse none = [] ∧
    (∃ fields, goodEntry = JValue.jobj fields ∧ (jLookup "id" fields).isSome = true ∧
       ∃ s, jLookup "type" fields = some (JValue.jstr s)) ∧
    (loadItems false false [] [] (some (some (JValue.jarr [goodEntry]))) urlOf 7).db
        = [jDecodeItem goodEntry] ∧
    (loadItems false false [] [] (some (some (JValue.jarr [goodEntry]))) urlOf 7).legacy
        = none :=
  ⟨claim8_legacy_import.1,
   claim8_legacy_import.2.1 (some (JValue.jarr [goodEntry])) goodEntry (List.Mem.head _),
   ((claim8_legacy_import.2.2 false [] (some (JValue.jarr [goodEntry])) urlOf 7).2.1
      (by decide)).1,
   ((claim8_legacy_import.2.2 false [] (some (JValue.jarr [goodEntry])) urlOf 7).2.1
      (by decide)).2⟩

/-- Claim C9: the remote read-all contract.  It returns an empty
collection when unconfigured and on a read fault (it never throws: the
function is total), and otherwise returns every remote record sorted in
descending order of id. -/
theorem claim9_readAll_contract :
    (∀ fetch, loadItemsFromCloud false fetch = []) ∧
    (∀ c, loadItemsFromCloud c (Except.error ()) = []) ∧
    (∀ docs : List Item, (loadItemsFromCloud true (Except.ok docs)).Perm docs ∧
        List.Sorted idDesc (loadItemsFromCloud true (Except.ok docs))) := by
  refine ⟨fun fetch => rfl, fun c => ?_, fun docs => ?_⟩
  · cases c <;> rfl
  · exact ⟨List.perm_insertionSort idDesc docs, List.sorted_insertionSort idDesc docs⟩

/-- Claim C10: frame property of the toggle operation.  The length is
preserved, each position either keeps its item (different id) or keeps
the same item with only the important flag flipped, the flipped record
agrees with the original on id, type, content, name, size, media type,
payload and createdAt, and toggling an absent id leaves the collection
equal to the original. -/
theorem claim10_toggle_frame (id : Int) (items : List Item) :
    (toggleImportantList id items).length = items.length ∧
    (∀ n : Nat, (toggleImportantList id items)[n]?
        = (items[n]?).map (fun it =>
            if it.id = id then { it with important := !it.important } else it)) ∧
    (∀ it : Item, it.id = id →
       ({ it with important := !it.important } : Item).id = it.id ∧
       ({ it with important := !it.important } : Item).type = it.type ∧
       ({ it with important := !it.important } : Item).content = it.content ∧
       ({ it with important := !it.important } : Item).name = it.name ∧
       ({ it with important := !it.important } : Item).size = it.size ∧
       ({ it with important := !it.important } : Item).fileType = it.fileType ∧
       ({ it with important := !it.important } : Item).data = it.data ∧
       ({ it with important := !it.important } : Item).createdAt = it.createdAt) ∧
    ((∀ it ∈ items, it.id ≠ id) → toggleImportantList id items = items) := by
  refine ⟨by simp [toggleImportantList], fun n => ?_, fun it _ => ?_, fun h => ?_⟩
  · exact List.getElem?_map ..
  · exact ⟨rfl, rfl, rfl, rfl, rfl, rfl, rfl, rfl⟩
  · unfold toggleImportantList
    rw [List.map_congr_left]
    · exact List.map_id items
    · intro it hmem
      rw [if_neg (h it hmem)]
      rfl

/-- Witness for claim C10 at a concrete collection. -/
theorem claim10_witness :
    (toggleImportantList 1 [inlineFile, dummyNote]).length = 2 ∧
    toggleImportantList 5 [inlineFile, dummyNote] = [inlineFile, dummyNote] := by
  refine ⟨?_, ?_⟩
  · rw [(claim10_toggle_frame 1 [inlineFile, dummyNote]).1]
    rfl
  · exact (claim10_toggle_frame 5 [inlineFile, dummyNote]).2.2.2 (by decide)
